import Mathlib

/-!
Verification of the Smart-Info-Agent repository.

Shallow embedding of the Python code in `src/` (document ingestion in
`core/utils.py` and `core/rag.py`, the JSON-backed memory store in
`core/memory_store.py`, the agent graph node in `core/graph_builder.py`,
and the four HTTP tool wrappers in `tools/`).  Python strings are
modelled as `List Char`, Python ints as `Int`, exceptions as `Except`,
and dictionaries as association lists.  External services (HTTP
responses, the OCR engine, the LLM, the vector store) are inputs of the
embedded functions.
-/

namespace SmartInfo

/-! ### Python string primitives -/

/-- Whitespace characters stripped by Python's `str.strip()` (ASCII range). -/
def pyIsSpace (c : Char) : Bool :=
  c = ' ' || c = '\t' || c = '\n' || c = '\r' || c = '\x0b' || c = '\x0c'

/-- Python `s.strip()`: drop whitespace from the front, then from the back. -/
def pyStrip (l : List Char) : List Char :=
  List.rdropWhile pyIsSpace (l.dropWhile pyIsSpace)

/-- Python `s.replace("\r\n", "\n")`: left-to-right, non-overlapping. -/
def replaceCRLF : List Char → List Char
  | [] => []
  | '\r' :: '\n' :: rest => '\n' :: replaceCRLF rest
  | c :: rest => c :: replaceCRLF rest

/-- Python `sep.join(parts)`. -/
def pyJoin (sep : List Char) : List (List Char) → List Char
  | [] => []
  | [p] => p
  | p :: ps => p ++ sep ++ pyJoin sep ps

/-- Python index clamping used by a slice `l[a:b]` (step 1):
negative indices count from the end, then the index is clamped to `[0, n]`. -/
def pyIdx (n : Nat) (i : Int) : Nat :=
  if i < 0 then ((n : Int) + i).toNat else min i.toNat n

/-- Python slice `l[a:b]`. -/
def pySlice (l : List Char) (a b : Int) : List Char :=
  (l.take (pyIdx l.length b)).drop (pyIdx l.length a)

/-- Python `s.lower()` (ASCII range). -/
def pyLower (l : List Char) : List Char := l.map Char.toLower

/-- Python `s.endswith(suffix)`. -/
def pyEndsWith (l suffix : List Char) : Bool := suffix.isSuffixOf l

/-! ### `chunk_text` (src/core/utils.py, lines 201-285) -/

/-- Steps 2-4 of `chunk_text`: normalize newlines and strip, split into
lines, strip each line, keep the non-blank ones, and rejoin with single
spaces.  (`text.replace("\r\n","\n").strip()`, then
`[p.strip() for p in text.split("\n") if p.strip()]`, then `" ".join`.) -/
def normJoin (text : List Char) : List Char :=
  let t := pyStrip (replaceCRLF text)
  let paragraphs := ((t.splitOn '\n').map pyStrip).filter (fun p => p ≠ [])
  pyJoin [' '] paragraphs

/-- Steps 8-10 of `chunk_text`: the main chunking loop.  `fuel` is only a
structural-recursion bound; the loop itself stops after 100000 iterations
through its own safety guard (`iteration > 100000`), so a fuel of 100001
is never exhausted. -/
def chunkLoop (joined : List Char) (cs ov : Int) :
    Nat → Int → Nat → List (List Char) → List (List Char)
  | 0, _, _, chunks => chunks
  | fuel + 1, start, iter, chunks =>
    if start < (joined.length : Int) then
      let e := min (start + cs) (joined.length : Int)
      let chunk := pyStrip (pySlice joined start e)
      let chunks' := if chunk ≠ [] then chunks ++ [chunk] else chunks
      let next := start + cs - ov
      if next ≤ start then chunks'
      else if (joined.length : Int) ≤ next then chunks'
      else if 100000 < iter + 1 then chunks'
      else chunkLoop joined cs ov fuel next (iter + 1) chunks'
    else chunks

/-- Embedding of `chunk_text(text, chunk_size, overlap)`.  The `ValueError` raised when
`chunk_size <= overlap` is modelled as `Except.error`. -/
def chunk_text (text : List Char) (chunk_size : Int := 1000) (overlap : Int := 200) :
    Except String (List (List Char)) :=
  let joined := normJoin text
  if joined = [] then .ok []
  else if chunk_size ≤ overlap then
    .error "chunk_size must be greater than overlap to avoid infinite loops."
  else if (joined.length : Int) ≤ chunk_size then .ok [joined]
  else .ok (chunkLoop joined chunk_size overlap 100001 0 0 [])

/-! ### `parse_pdf` (src/core/utils.py, lines 121-185) -/

/-- One page of a PDF as `parse_pdf` observes it: the outcome of
`page.extract_text()` (`.error` = exception raised, `.ok none` = `None`
returned), the outcome of `doc.load_page(...).get_pixmap(...)` with the
pixmap dimensions, and the text the external OCR engine returns for that
page's pixmap (both `extract_image_ocr` and
`extract_text_from_image_bytes` catch their own exceptions and return a
string). -/
structure PdfPage where
  extract : Except Unit (Option (List Char))
  pixmap : Except Unit (Nat × Nat)
  ocr : List Char

/-- The document behind `file_bytes`: whether
`PdfReader`/`fitz.open`/`len(pdf.pages)` succeed, the pages, and the point
(if any) at which iterating `pdf.pages` raises mid-loop. -/
structure PdfDoc where
  loadOk : Bool
  pages : List PdfPage
  failAfter : Option Nat

/-- STEP 1 of the per-page loop: `page.extract_text()` under its
`try/except`.  `page_text` becomes `raw_text.strip()` when that is
non-empty and stays `""` otherwise — which is `pyStrip raw` in both
cases. -/
def step1Text (p : PdfPage) : List Char :=
  match p.extract with
  | .ok (some raw) => pyStrip raw
  | _ => []

/-- Whether STEP 2 actually invokes `extract_image_ocr` on the page: only
when STEP 1 produced no text, the pixmap rendered, and the page is not
over `max_image_pixels`. -/
def ocrRan (max_image_pixels : Nat) (p : PdfPage) : Bool :=
  if step1Text p = [] then
    match p.pixmap with
    | .ok (w, h) => decide (w * h ≤ max_image_pixels)
    | .error _ => false
  else false

/-- The `page_text` at the end of STEP 2 (OCR text replaces the empty
STEP-1 text only when it is itself non-empty, and `p.ocr` covers both
cases). -/
def pageText (max_image_pixels : Nat) (p : PdfPage) : List Char :=
  if step1Text p ≠ [] then step1Text p
  else
    match p.pixmap with
    | .error _ => []
    | .ok (w, h) => if w * h > max_image_pixels then [] else p.ocr

/-- What the page adds to `final_text`: `page_text + "\n\n"` when
`page_text` is non-empty, nothing otherwise. -/
def pageContribution (max_image_pixels : Nat) (p : PdfPage) : List Char :=
  if pageText max_image_pixels p = [] then []
  else pageText max_image_pixels p ++ ['\n', '\n']

/-- The page loop of `parse_pdf` together with the outer `except`: when
iterating `pdf.pages` raises, the handler hands back whatever text was
accumulated so far. -/
def parsePdfLoop (max_image_pixels : Nat) : List PdfPage → Option Nat → List Char → List Char
  | _, some 0, acc => acc
  | [], _, acc => acc
  | p :: rest, fa, acc =>
    parsePdfLoop max_image_pixels rest (fa.map (· - 1)) (acc ++ pageContribution max_image_pixels p)

set_option linter.unusedVariables false in
/-- Embedding of `parse_pdf(file_bytes, ocr_timeout, max_image_pixels)`.
The function always returns `final_text.strip()`; `ocr_timeout` is
forwarded to the external OCR call, whose result is already part of the
page model. -/
def parse_pdf (doc : PdfDoc) (ocr_timeout : Nat := 8) (max_image_pixels : Nat := 3000000) : List Char :=
  if doc.loadOk then pyStrip (parsePdfLoop max_image_pixels doc.pages doc.failAfter [])
  else pyStrip []

/-! ### `parallel_ocr` (src/core/utils.py, lines 58-91) -/

/-- The closure `ocr_task` inside `parallel_ocr`: load the page by index
(an out-of-range index raises and is caught), render the pixmap, skip
pages over 3,000,000 pixels, otherwise OCR. -/
def ocr_task (doc : List PdfPage) (idx : Nat) : List Char :=
  match doc[idx]? with
  | none => []
  | some p =>
    match p.pixmap with
    | .error _ => []
    | .ok (w, h) => if w * h > 3000000 then [] else p.ocr

/-- Observable outcome of a `ThreadPoolExecutor` run: its worker bound,
the submitted task arguments, and the collected results. -/
structure ThreadPoolRun where
  max_workers : Nat
  submitted : List Nat
  results : List (List Char)

/-- Embedding of `parallel_ocr(doc, blank_pages, max_pages=5)`.  The executor is
created with `max_workers=2`; only `blank_pages[:max_pages]` is
submitted.  `as_completed` yields results in completion order, which is
nondeterministic; they are recorded here in submission order. -/
def parallel_ocr (doc : List PdfPage) (blank_pages : List Nat) (max_pages : Nat := 5) : ThreadPoolRun :=
  { max_workers := 2
    submitted := blank_pages.take max_pages
    results := ((blank_pages.take max_pages).map (ocr_task doc)).filter
      (fun t => pyStrip t ≠ []) }

/-! ### `index_documents` (src/core/rag.py, lines 67-142) -/

/-- An uploaded file as `index_documents` observes it: its name and the
text each of the four extraction paths would produce from its bytes
(`parse_pdf`, `parse_docx`, `extract_text_from_image_bytes`, and
`bytes.decode("utf-8")`, whose failure is the `Except.error` case). -/
structure UploadFile where
  name : List Char
  pdfText : List Char
  docxText : List Char
  imageText : List Char
  utf8 : Except Unit (List Char)

/-- The fallback branch of the type dispatch: `fbytes.decode("utf-8")`
under its `try/except`, yielding `""` on failure. -/
def utf8Fallback (f : UploadFile) : List Char :=
  match f.utf8 with
  | .ok t => t
  | .error _ => []

/-- The extension dispatch of the parsing loop (STEP 2): lowercase the
filename and test `.pdf`, `.docx`, then `.jpg`/`.jpeg`/`.png`, falling
back to UTF-8 decoding. -/
def extractText (f : UploadFile) : List Char :=
  let fname_lower := pyLower f.name
  if pyEndsWith fname_lower ".pdf".toList then f.pdfText
  else if pyEndsWith fname_lower ".docx".toList then f.docxText
  else if pyEndsWith fname_lower ".jpg".toList || pyEndsWith fname_lower ".jpeg".toList ||
      pyEndsWith fname_lower ".png".toList then f.imageText
  else utf8Fallback f

/-- The metadata dict with source and chunk fields stored per chunk. -/
structure ChunkMeta where
  source : List Char
  chunk : Nat
deriving DecidableEq

/-- The id string `f"{i}_{j}"` stored per chunk. -/
def chunkId (i j : Nat) : String := toString i ++ "_" ++ toString j

/-- The parsing loop of `index_documents` over the enumerated uploads,
accumulating `docs_texts`, `metadatas` and `ids`; a `ValueError` from
`chunk_text` propagates. -/
def indexLoop (cs ov : Int) :
    List (Nat × UploadFile) → Except String (List (List Char) × List ChunkMeta × List String)
  | [] => .ok ([], [], [])
  | (i, f) :: rest =>
    if pyStrip (extractText f) = [] then indexLoop cs ov rest
    else
      match chunk_text (extractText f) cs ov with
      | .error e => .error e
      | .ok chunks =>
        match indexLoop cs ov rest with
        | .error e => .error e
        | .ok (ts, ms, ids) =>
          .ok (chunks ++ ts,
            (List.range chunks.length).map (fun j => ⟨f.name, j⟩) ++ ms,
            (List.range chunks.length).map (fun j => chunkId i j) ++ ids)

/-- Embedding of `index_documents(docs, ..., chunk_size=1000, overlap=200)`: the texts,
metadata and ids handed to `vector_store.add_texts`.  The vector-store
construction and upload are external calls. -/
def index_documents (docs : List UploadFile) (chunk_size : Int := 1000) (overlap : Int := 200) :
    Except String (List (List Char) × List ChunkMeta × List String) :=
  indexLoop chunk_size overlap docs.enum

/-! ### `get_retriever_for_collection` (src/core/rag.py, lines 147-168) -/

/-- The langchain `Document` as the retriever reads it. -/
structure RagDocument (μ : Type) where
  page_content : String
  metadata : μ

/-- Default of the `top_k` parameter of `get_retriever_for_collection`. -/
def top_k_default : Nat := 5

/-- The closure `retriever(query, k)` returned by
`get_retriever_for_collection`; `similarity_search_with_score` is the
external Chroma call, whose failure is the `Except.error` case. -/
def retrieverFun {μ σ : Type}
    (similarity_search_with_score : String → Nat → Except String (List (RagDocument μ × σ)))
    (query : String) (k : Nat) : List (String × μ × σ) :=
  if pyStrip query.toList = [] then []
  else
    match similarity_search_with_score query k with
    | .error _ => []
    | .ok results => results.map (fun r => (r.1.page_content, r.1.metadata, r.2))

/-- Embedding of `get_retriever_for_collection(vector_store, top_k=5)`: the returned
closure, whose `k` argument defaults to `top_k` when the caller omits it
(`none`). -/
def get_retriever_for_collection {μ σ : Type}
    (similarity_search_with_score : String → Nat → Except String (List (RagDocument μ × σ)))
    (top_k : Nat := top_k_default) : String → Option Nat → List (String × μ × σ) :=
  fun query k => retrieverFun similarity_search_with_score query (k.getD top_k)

/-! ### `MemoryStore.append` (src/core/memory_store.py, lines 20-29) -/

/-- One conversation record with role, content and timestamp fields. -/
structure MemMessage where
  role : String
  content : String
  timestamp : String
deriving DecidableEq

/-- A value stored in `self.data`: the message list under `"messages"`,
or an arbitrary value saved through `MemoryStore.save`. -/
inductive MemVal where
  | msgs (l : List MemMessage)
  | other (v : String)
deriving DecidableEq

/-- Python `dict.setdefault(k, v)`: insert at the end when the key is absent. -/
def dictSetdefault (d : List (String × MemVal)) (k : String) (v : MemVal) :
    List (String × MemVal) :=
  if (List.lookup k d).isSome then d else d ++ [(k, v)]

/-- In-place replacement of the value stored under `k` (the effect of
`self.data["messages"].extend(...)` on the dict): key order and all other
entries are untouched. -/
def dictUpdateVal (d : List (String × MemVal)) (k : String) (v : MemVal) :
    List (String × MemVal) :=
  d.map (fun kv => if kv.1 = k then (kv.1, v) else kv)

namespace MemoryStore

/-- Embedding of `MemoryStore.append(user_input, assistant_output)`: setdefault the
message list, then extend it with the user and assistant records.  The
two `datetime.now().isoformat()` calls are the `ts1`/`ts2` inputs, and
`_save_to_file` (which catches its own exceptions) does not touch
`self.data`.  Calling `.extend` on a non-list value would raise, the
`Except.error` case. -/
def append (data : List (String × MemVal)) (user_input assistant_output ts1 ts2 : String) :
    Except String (List (String × MemVal)) :=
  let d := dictSetdefault data "messages" (.msgs [])
  match List.lookup "messages" d with
  | some (.msgs l) =>
    .ok (dictUpdateVal d "messages"
      (.msgs (l ++ [⟨"user", user_input, ts1⟩, ⟨"assistant", assistant_output, ts2⟩])))
  | _ => .error "AttributeError"

end MemoryStore

/-! ### `llm_node` (src/core/graph_builder.py, lines 61-69) -/

/-- The agent state: a message list and the `llm_calls` counter, absent
when the key was never set (`state.get("llm_calls", 0)`). -/
structure AgentState (α : Type) where
  messages : List α
  llm_calls : Option Nat

/-- The partial state update a LangGraph node returns. -/
structure LlmNodeUpdate (α : Type) where
  messages : List α
  llm_calls : Nat

/-- Embedding of `llm_node(state)`: invoke the tool-bound LLM (external, the
`llm_with_tools` input) on the system prompt plus the state's messages
and return the update holding the single response message and the
incremented call counter. -/
def llm_node {α : Type} (llm_with_tools : List α → α) (system : α)
    (state : AgentState α) : LlmNodeUpdate α :=
  { messages := [llm_with_tools (system :: state.messages)]
    llm_calls := state.llm_calls.getD 0 + 1 }

/-! ### JSON values and Python operations for the tool layer (src/tools/) -/

/-- A JSON value as `resp.json()` can produce it. -/
inductive JVal where
  | null
  | bool (b : Bool)
  | num (n : Int)
  | str (s : String)
  | arr (elems : List JVal)
  | obj (fields : List (String × JVal))

/-- Python truthiness of a JSON value. -/
def JVal.truthy : JVal → Bool
  | .null => false
  | .bool b => b
  | .num n => n != 0
  | .str s => !(s == "")
  | .arr l => !l.isEmpty
  | .obj f => !f.isEmpty

/-- Python `v.get(k, default)`: only dicts have `.get`; anything else
raises `AttributeError`. -/
def pyGet (v : JVal) (k : String) (default : JVal) : Except String JVal :=
  match v with
  | .obj fields => .ok ((List.lookup k fields).getD default)
  | _ => .error "AttributeError"

/-- Python `v[k]` for a string key: `KeyError` when missing, `TypeError`
on non-dicts. -/
def pySubscript (v : JVal) (k : String) : Except String JVal :=
  match v with
  | .obj fields =>
    match List.lookup k fields with
    | some x => .ok x
    | none => .error "KeyError"
  | _ => .error "TypeError"

/-- Python `k in v`: key membership for dicts, element membership for
lists, substring test for strings, `TypeError` otherwise. -/
def pyContains (k : String) (v : JVal) : Except String Bool :=
  match v with
  | .obj fields => .ok (List.lookup k fields).isSome
  | .arr elems => .ok (elems.any fun e => match e with | .str s => s == k | _ => false)
  | .str s => .ok (k == "" || (s.splitOn k).length ≥ 2)
  | _ => .error "TypeError"

/-- Python `v[0]` as the tool code uses it, immediately followed by a
string subscript: only a non-empty list lets the combination succeed, so
the error cases collapse (`v[0]` on a string succeeds in Python, but the
following `[...]` subscript then raises). -/
def pyIndex0 (v : JVal) : Except String JVal :=
  match v with
  | .arr (x :: _) => .ok x
  | _ => .error "IndexError"

/-- Python `round(v, 2)`: numbers (JSON numbers are modelled as integers,
on which rounding to two decimals is the identity) and bools round,
everything else raises `TypeError`. -/
def pyRound2 (v : JVal) : Except String JVal :=
  match v with
  | .num n => .ok (.num n)
  | .bool b => .ok (.num (if b then 1 else 0))
  | _ => .error "TypeError"

/-- Python `s.upper()` (ASCII range). -/
def pyUpper (s : String) : String := s.map Char.toUpper

/-- What a `requests.get`/`requests.post` call can observe: a timeout,
another `RequestException`, or a response carrying an HTTP status and the
outcome of `resp.json()` (whose failure raises `ValueError`).
`raise_for_status()` raises an `HTTPError` (a `RequestException`) when
the status is at least 400. -/
inductive HttpOutcome where
  | timeout
  | reqError (msg : String)
  | response (status : Nat) (body : Except String JVal)

/-- The dictionaries the tools return. -/
abbrev ToolDict := List (String × JVal)

/-- The error dictionary with the given message. -/
def errDict (msg : String) : ToolDict :=
  [("status", .str "error"), ("message", .str msg)]

/-- The returned dict carries a `"status"` key holding `"success"`,
`"error"` or `"invalid"`. -/
def statusIsValid (d : ToolDict) : Bool :=
  match List.lookup "status" d with
  | some (.str s) => s == "success" || s == "error" || s == "invalid"
  | _ => false

/-! #### `get_weather_info` (src/tools/weather_tool.py) -/

/-- The body of `WeatherStackAPI.get_weather` after a successful
`resp.json()`; an `Except.error` is an exception reaching the
`except Exception` handler. -/
def weatherParse (data : JVal) (city ts : String) : Except String ToolDict := do
  let hasErr ← pyContains "error" data
  if hasErr then
    let errv ← pySubscript data "error"
    let info ← pyGet errv "info" (.str "Unknown error from Weatherstack API.")
    return [("status", .str "error"), ("message", info)]
  else
    let current ← pyGet data "current" (.obj [])
    let location ← pyGet data "location" (.obj [])
    let name ← pyGet location "name" (.str city)
    let country ← pyGet location "country" .null
    let region ← pyGet location "region" .null
    let temperature ← pyGet current "temperature" .null
    let feelslike ← pyGet current "feelslike" .null
    let humidity ← pyGet current "humidity" .null
    let pressure ← pyGet current "pressure" .null
    let wind_speed ← pyGet current "wind_speed" .null
    let wind_dir ← pyGet current "wind_dir" .null
    let descs ← pyGet current "weather_descriptions" (.arr [])
    let obsTime ← pyGet current "observation_time" .null
    return [("status", .str "success"), ("city", name), ("country", country),
      ("region", region), ("temperature_c", temperature), ("feelslike_c", feelslike),
      ("humidity", humidity), ("pressure", pressure), ("wind_speed", wind_speed),
      ("wind_dir", wind_dir), ("weather_descriptions", descs),
      ("observation_time", obsTime), ("timestamp", .str ts)]

/-- Embedding of `WeatherStackAPI.get_weather(city)`; `ts` is the external
`datetime.now().isoformat()`. -/
def WeatherStackAPI.get_weather (outcome : HttpOutcome) (city ts : String) : ToolDict :=
  if pyStrip city.toList = [] then errDict "City name is required."
  else
    match outcome with
    | .timeout => errDict "Weatherstack API request timed out."
    | .reqError e => errDict ("Network or API error: " ++ e)
    | .response status body =>
      if 400 ≤ status then errDict "Network or API error: HTTPError"
      else
        match body >>= fun data => weatherParse data city ts with
        | .ok d => d
        | .error e => errDict ("Unexpected error: " ++ e)

/-- The `get_weather_info` tool wrapper; its `try/except` has nothing to
catch because the client already returns on every path. -/
def get_weather_info (outcome : HttpOutcome) (city ts : String) : ToolDict :=
  WeatherStackAPI.get_weather outcome city ts

/-! #### `get_crypto_price` (src/tools/crypto_tool.py) -/

/-- The body of `CoinMarketAPI.get_price` after a successful
`resp.json()`. -/
def cryptoParse (data : JVal) (symbol ts : String) : Except String ToolDict := do
  let hasData ← pyContains "data" data
  if !hasData then
    return [("status", .str "error"),
      ("message", .str ("Symbol " ++ symbol ++ " not found in API response."))]
  else
    let d ← pySubscript data "data"
    let hasSym ← pyContains (pyUpper symbol) d
    if !hasSym then
      return [("status", .str "error"),
        ("message", .str ("Symbol " ++ symbol ++ " not found in API response."))]
    else
      let info ← pySubscript d (pyUpper symbol)
      let quoteOuter ← pySubscript info "quote"
      let quote ← pySubscript quoteOuter "USD"
      let name ← pyGet info "name" (.str "Unknown")
      let price ← pyGet quote "price" (.num 0)
      let priceR ← pyRound2 price
      let chg ← pyGet quote "percent_change_24h" (.num 0)
      let chgR ← pyRound2 chg
      let mcap ← pyGet quote "market_cap" (.num 0)
      let mcapR ← pyRound2 mcap
      return [("status", .str "success"), ("symbol", .str (pyUpper symbol)),
        ("name", name), ("price_usd", priceR), ("percent_change_24h", chgR),
        ("market_cap_usd", mcapR), ("timestamp", .str ts)]

/-- Embedding of `CoinMarketAPI.get_price(symbol)`. -/
def CoinMarketAPI.get_price (outcome : HttpOutcome) (symbol ts : String) : ToolDict :=
  match outcome with
  | .timeout => errDict "Request timed out while contacting CoinMarketCap API."
  | .reqError e => errDict ("Network or API error: " ++ e)
  | .response status body =>
    if 400 ≤ status then errDict "Network or API error: HTTPError"
    else
      match body >>= fun data => cryptoParse data symbol ts with
      | .ok d => d
      | .error e => errDict ("Unexpected error: " ++ e)

/-- The `get_crypto_price` tool wrapper. -/
def get_crypto_price (outcome : HttpOutcome) (symbol ts : String) : ToolDict :=
  CoinMarketAPI.get_price outcome symbol ts

/-! #### `verify_phone_number` (src/tools/numverify_tool.py) -/

/-- The body of `NumVerifyAPI.lookup` after a successful `resp.json()`. -/
def numverifyParse (data : JVal) (phone : String) : Except String ToolDict := do
  let hasErr ← pyContains "error" data
  if hasErr then
    let errv ← pySubscript data "error"
    let info ← pyGet errv "info" (.str "Invalid API request.")
    return [("status", .str "error"), ("message", info)]
  else
    let valid ← pyGet data "valid" .null
    if !valid.truthy then
      return [("status", .str "invalid"),
        ("message", .str (phone ++ " is not a valid phone number."))]
    else
      let number ← pyGet data "international_format" .null
      let cname ← pyGet data "country_name" .null
      let ccode ← pyGet data "country_code" .null
      let loc ← pyGet data "location" .null
      let carrier ← pyGet data "carrier" .null
      let ltype ← pyGet data "line_type" .null
      return [("status", .str "success"), ("number", number), ("country_name", cname),
        ("country_code", ccode), ("location", loc), ("carrier", carrier),
        ("line_type", ltype)]

/-- Embedding of `NumVerifyAPI.lookup(phone_number)`. -/
def NumVerifyAPI.lookup (outcome : HttpOutcome) (phone : String) : ToolDict :=
  if pyStrip phone.toList = [] then errDict "Phone number is required."
  else
    match outcome with
    | .timeout => errDict "NumVerify API request timed out."
    | .reqError e => errDict ("Network or API error: " ++ e)
    | .response status body =>
      if 400 ≤ status then errDict "Network or API error: HTTPError"
      else
        match body >>= fun data => numverifyParse data phone with
        | .ok d => d
        | .error e => errDict ("Unexpected error: " ++ e)

/-- The `verify_phone_number` tool wrapper. -/
def verify_phone_number (outcome : HttpOutcome) (phone : String) : ToolDict :=
  NumVerifyAPI.lookup outcome phone

/-! #### `search_flights_amadeus` (src/tools/amadeus_tool.py) -/

/-- The external world of the Amadeus client: the `access_token` held
after `__init__` (`null` models Python `None`), and the outcomes of a
re-authentication POST, of the location lookup per keyword, and of the
flight-offers GET. -/
structure AmadeusEnv where
  initToken : JVal
  tokenOutcome : HttpOutcome
  locOutcome : String → HttpOutcome
  flightOutcome : HttpOutcome

/-- Embedding of the authenticate method of AmadeusAPI: any failure is re-raised as
`RuntimeError`; on success `self.access_token` becomes
`resp.json().get("access_token")`. -/
def AmadeusAPI.authenticate (env : AmadeusEnv) : Except String JVal :=
  match env.tokenOutcome with
  | .timeout => .error "Failed to authenticate with Amadeus API: Timeout"
  | .reqError e => .error ("Failed to authenticate with Amadeus API: " ++ e)
  | .response status body =>
    if 400 ≤ status then .error "Failed to authenticate with Amadeus API: HTTPError"
    else
      match body with
      | .error e => .error ("Failed to authenticate with Amadeus API: " ++ e)
      | .ok data =>
        match pyGet data "access_token" .null with
        | .error e => .error ("Failed to authenticate with Amadeus API: " ++ e)
        | .ok tok => .ok tok

/-- Embedding of the headers method of AmadeusAPI: re-authenticate when the stored token is
falsy; returns the token the headers are built from. -/
def AmadeusAPI.headers (env : AmadeusEnv) (token : JVal) : Except String JVal :=
  if token.truthy then .ok token
  else AmadeusAPI.authenticate env

/-- Embedding of `AmadeusAPI.get_iata_code(city_name)`: every exception inside is
re-raised as `RuntimeError`; `None` (no location found) is `.null`.
Returns the possibly refreshed token alongside the result. -/
def AmadeusAPI.get_iata_code (env : AmadeusEnv) (token : JVal) (city : String) :
    Except String (JVal × JVal) :=
  let wrap := fun (e : String) => "Failed to get IATA code for " ++ city ++ ": " ++ e
  match AmadeusAPI.headers env token with
  | .error e => .error (wrap e)
  | .ok token' =>
    match env.locOutcome city with
    | .timeout => .error (wrap "Timeout")
    | .reqError e => .error (wrap e)
    | .response status body =>
      if 400 ≤ status then .error (wrap "HTTPError")
      else
        match body with
        | .error e => .error (wrap e)
        | .ok data =>
          match pyGet data "data" (.arr []) with
          | .error e => .error (wrap e)
          | .ok locations =>
            if locations.truthy then
              match pyIndex0 locations >>= fun l0 => pySubscript l0 "iataCode" with
              | .error e => .error (wrap e)
              | .ok code => .ok (token', code)
            else .ok (token', .null)

/-- The formatting loop over `flights`: `continue` on itineraries without
segments, raise (into the surrounding `except Exception`) on any missing
key. -/
def formatFlights : List JVal → Except String (List JVal)
  | [] => .ok []
  | f :: rest => do
    let its ← pyGet f "itineraries" (.arr [.obj []])
    let it0 ← pyIndex0 its
    let segs ← pyGet it0 "segments" .null
    if !segs.truthy then formatFlights rest
    else
      let segsv ← pySubscript it0 "segments"
      let seg ← pyIndex0 segsv
      let carrier ← pySubscript seg "carrierCode"
      let number ← pySubscript seg "number"
      let dep ← pySubscript seg "departure"
      let depCode ← pySubscript dep "iataCode"
      let depAt ← pySubscript dep "at"
      let arrv ← pySubscript seg "arrival"
      let arrCode ← pySubscript arrv "iataCode"
      let arrAt ← pySubscript arrv "at"
      let restF ← formatFlights rest
      return (JVal.obj [("airline", carrier), ("flight_number", number),
        ("departure_airport", depCode), ("departure_time", depAt),
        ("arrival_airport", arrCode), ("arrival_time", arrAt)]) :: restF

/-- The `try` block around the flight-offers request; an `Except.error`
is an exception reaching its `except Exception` handler. -/
def flightTry (env : AmadeusEnv) (token : JVal) : Except String ToolDict := do
  let _ ← AmadeusAPI.headers env token
  match env.flightOutcome with
  | .timeout => .error "Timeout"
  | .reqError e => .error e
  | .response status body =>
    if 400 ≤ status then .error "HTTPError"
    else do
      let data ← body
      let flights ← pyGet data "data" (.arr [])
      if !flights.truthy then
        return errDict "No flights found."
      else
        match flights with
        | .arr fs => do
          let formatted ← formatFlights fs
          return [("status", .str "success"), ("flights", .arr formatted)]
        | _ => .error "TypeError"

/-- Embedding of `AmadeusAPI.search_flights(origin_city, destination_city,
departure_date)`: the IATA lookups run outside any `try`, so their
`RuntimeError`s propagate (`.error`) to the tool wrapper; the flight
request runs under its own `except Exception`.  The departure date
defaults externally and does not influence the modelled outcomes. -/
def AmadeusAPI.search_flights (env : AmadeusEnv) (origin destination : String) :
    Except String ToolDict :=
  match AmadeusAPI.get_iata_code env env.initToken origin with
  | .error e => .error e
  | .ok (token1, origin_code) =>
    match AmadeusAPI.get_iata_code env token1 destination with
    | .error e => .error e
    | .ok (token2, destination_code) =>
      if !origin_code.truthy || !destination_code.truthy then
        .ok (errDict "Could not find IATA code for one of the cities.")
      else
        .ok (match flightTry env token2 with
          | .ok d => d
          | .error e => errDict ("Flight search failed: " ++ e))

/-- The `search_flights_amadeus` tool wrapper: its `try/except` catches
the propagated `RuntimeError`s and returns an error dict. -/
def search_flights_amadeus (env : AmadeusEnv) (origin destination : String) : ToolDict :=
  match AmadeusAPI.search_flights env origin destination with
  | .ok d => d
  | .error e => errDict e

/-! ### Facts about the string primitives -/

theorem dropWhile_head_false {α : Type} {p : α → Bool} {l : List α} {a : α} {t : List α}
    (h : l.dropWhile p = a :: t) : p a = false := by
  have w : l.dropWhile p ≠ [] := by simp [h]
  have hh := List.head_dropWhile_not p l w
  simpa [h] using hh

theorem pyStrip_eq_nil_iff {l : List Char} : pyStrip l = [] ↔ ∀ c ∈ l, pyIsSpace c := by
  unfold pyStrip
  rw [List.rdropWhile_eq_nil_iff]
  constructor
  · intro h c hc
    have hd : l.dropWhile pyIsSpace = [] := by
      cases hdw : l.dropWhile pyIsSpace with
      | nil => rfl
      | cons a t =>
        have hfalse := dropWhile_head_false hdw
        have ha := h a (by rw [hdw]; exact List.mem_cons_self a t)
        rw [hfalse] at ha
        exact absurd ha (by simp)
    exact List.dropWhile_eq_nil_iff.mp hd c hc
  · intro h c hc
    exact h c ((List.dropWhile_suffix pyIsSpace).subset hc)

theorem pyStrip_length_le (l : List Char) : (pyStrip l).length ≤ l.length := by
  have h1 : (pyStrip l).length ≤ (l.dropWhile pyIsSpace).length :=
    ( List.rdropWhile_prefix pyIsSpace (l.dropWhile pyIsSpace)).sublist.length_le
  have h2 : (l.dropWhile pyIsSpace).length ≤ l.length :=
    (List.dropWhile_suffix pyIsSpace).sublist.length_le
  exact le_trans h1 h2

theorem pyStrip_head_not_space {l : List Char} {a : Char} {t : List Char}
    (h : pyStrip l = a :: t) : pyIsSpace a = false := by
  obtain ⟨s, hs⟩ := List.rdropWhile_prefix pyIsSpace (l.dropWhile pyIsSpace)
  unfold pyStrip at h
  rw [h] at hs
  exact dropWhile_head_false hs.symm

theorem pyJoin_cons (sep p : List Char) (ps : List (List Char)) :
    ∃ r, pyJoin sep (p :: ps) = p ++ r := by
  cases ps with
  | nil => exact ⟨[], by simp [pyJoin]⟩
  | cons q qs => exact ⟨sep ++ pyJoin sep (q :: qs), by simp [pyJoin]⟩

/-- The joined text produced by steps 2-4 of `chunk_text` never starts with
a whitespace character: its first paragraph was stripped. -/
theorem normJoin_head_not_space {text : List Char} {a : Char} {t : List Char}
    (h : normJoin text = a :: t) : pyIsSpace a = false := by
  simp only [normJoin] at h
  set paragraphs :=
    (((pyStrip (replaceCRLF text)).splitOn '\n').map pyStrip).filter (fun p => decide (p ≠ [])) with hp
  cases hps : paragraphs with
  | nil => rw [hps] at h; simp [pyJoin] at h
  | cons p ps =>
    rw [hps] at h
    obtain ⟨r, hr⟩ := pyJoin_cons [' '] p ps
    rw [hr] at h
    have hpmem : p ∈ paragraphs := by rw [hps]; exact List.mem_cons_self p ps
    rw [hp] at hpmem
    have hpne : p ≠ [] := by
      have := (List.mem_filter.mp hpmem).2
      simpa using this
    have hpstrip : ∃ q, pyStrip q = p := by
      have := (List.mem_filter.mp hpmem).1
      obtain ⟨q, _, hq⟩ := List.mem_map.mp this
      exact ⟨q, hq⟩
    obtain ⟨q, hq⟩ := hpstrip
    cases hpc : p with
    | nil => exact absurd hpc hpne
    | cons b bs =>
      rw [hpc] at h
      simp only [List.cons_append] at h
      obtain ⟨hab, _⟩ := List.cons.inj h
      rw [← hab]
      exact pyStrip_head_not_space (by rw [hq, hpc])

/-- The length of a slice `l[start:e]` is at most `cs` when
`e ≤ start + cs` (all indices non-negative, `start` in range). -/
theorem length_pySlice_le {l : List Char} {start e cs : Int}
    (h0 : 0 ≤ start) (hsn : start < (l.length : Int)) (he0 : 0 ≤ e)
    (hcs0 : 0 ≤ cs) (hec : e ≤ start + cs) : ((pySlice l start e).length : Int) ≤ cs := by
  unfold pySlice pyIdx
  rw [if_neg (by omega), if_neg (by omega)]
  simp only [List.length_drop, List.length_take]
  omega

/-! ### Behavior of the chunking loop -/

theorem chunkLoop_ne_nil (joined : List Char) (cs ov : Int) :
    ∀ (fuel : Nat) (start : Int) (iter : Nat) (chunks : List (List Char)),
      chunks ≠ [] → chunkLoop joined cs ov fuel start iter chunks ≠ [] := by
  intro fuel
  induction fuel with
  | zero => intro start iter chunks h; simpa [chunkLoop] using h
  | succ n ih =>
    intro start iter chunks h
    simp only [chunkLoop]
    have hch : (if pyStrip (pySlice joined start (min (start + cs) (joined.length : Int))) ≠ []
        then chunks ++ [pyStrip (pySlice joined start (min (start + cs) (joined.length : Int)))]
        else chunks) ≠ [] := by
      split
      · simp
      · exact h
    split
    · split
      · exact hch
      · split
        · exact hch
        · split
          · exact hch
          · exact ih _ _ _ hch
    · exact h

theorem chunkLoop_forall_good (joined : List Char) (cs ov : Int)
    (hov : 0 ≤ ov) (hcs : ov < cs) :
    ∀ (fuel : Nat) (start : Int) (iter : Nat) (chunks : List (List Char)),
      0 ≤ start →
      (∀ c ∈ chunks, c ≠ [] ∧ (c.length : Int) ≤ cs) →
      ∀ c ∈ chunkLoop joined cs ov fuel start iter chunks,
        c ≠ [] ∧ (c.length : Int) ≤ cs := by
  intro fuel
  induction fuel with
  | zero => intro start iter chunks _ hgood; simpa [chunkLoop] using hgood
  | succ n ih =>
    intro start iter chunks hstart hgood
    simp only [chunkLoop]
    by_cases hlt : start < (joined.length : Int)
    · rw [if_pos hlt]
      have hch : ∀ c ∈ (if pyStrip (pySlice joined start (min (start + cs) (joined.length : Int))) ≠ []
          then chunks ++ [pyStrip (pySlice joined start (min (start + cs) (joined.length : Int)))]
          else chunks), c ≠ [] ∧ (c.length : Int) ≤ cs := by
        split
        · intro c hc
          rcases List.mem_append.mp hc with hc | hc
          · exact hgood c hc
          · simp only [List.mem_singleton] at hc
            subst hc
            refine ⟨by assumption, ?_⟩
            calc ((pyStrip (pySlice joined start (min (start + cs) (joined.length : Int)))).length : Int)
                ≤ ((pySlice joined start (min (start + cs) (joined.length : Int))).length : Int) := by
                  exact_mod_cast pyStrip_length_le _
              _ ≤ cs := length_pySlice_le hstart hlt (by omega) (by omega) (min_le_left _ _)
        · exact hgood
      split
      · exact hch
      · split
        · exact hch
        · split
          · exact hch
          · exact ih _ _ _ (by omega) hch
    · rw [if_neg hlt]; exact hgood

/-- Starting the loop at `start = 0` on a joined text whose head is not
whitespace produces a non-empty chunk list: the very first chunk survives
its `strip()`. -/
theorem chunkLoop_zero_ne_nil (joined : List Char) (cs ov : Int)
    (hov : 0 ≤ ov) (hcs : ov < cs) (a : Char) (t : List Char)
    (hj : joined = a :: t) (ha : pyIsSpace a = false) (fuel : Nat) :
    chunkLoop joined cs ov (fuel + 1) 0 0 [] ≠ [] := by
  simp only [chunkLoop]
  have hlen : (0 : Int) < (joined.length : Int) := by simp [hj]
  rw [if_pos hlen]
  have hchunk : pyStrip (pySlice joined 0 (min (0 + cs) (joined.length : Int))) ≠ [] := by
    intro hnil
    have hall := pyStrip_eq_nil_iff.mp hnil
    have hmem : a ∈ pySlice joined 0 (min (0 + cs) (joined.length : Int)) := by
      unfold pySlice pyIdx
      rw [if_neg (by omega), if_neg (by omega)]
      have h1 : min ((0 : Int)).toNat joined.length = 0 := by simp
      rw [h1, List.drop_zero, hj]
      have hmin : 1 ≤ min (min (0 + cs) ((a :: t).length : Int)).toNat (a :: t).length := by
        simp only [List.length_cons]
        omega
      cases hc : min (min (0 + cs) (((a :: t).length : Int))).toNat (a :: t).length with
      | zero => omega
      | succ k => simp [List.take_succ_cons]
    have := hall a hmem
    rw [ha] at this
    exact absurd this (by simp)
  rw [if_pos hchunk]
  have hnext : ¬(0 + cs - ov ≤ 0) := by omega
  rw [if_neg hnext]
  by_cases h2 : (joined.length : Int) ≤ 0 + cs - ov
  · rw [if_pos h2]; simp
  · rw [if_neg h2]
    rw [if_neg (show ¬(100000 < 0 + 1) by omega)]
    exact chunkLoop_ne_nil joined cs ov fuel _ _ _ (by simp)

/-- C8: `chunk_text` raises `ValueError` exactly when the normalized joined
text (newline normalization, paragraph splitting, rejoining) is non-empty and
`chunk_size <= overlap`; when the normalized joined text is empty it returns
the empty list for every choice of `chunk_size` and `overlap`, including
`chunk_size <= overlap`. -/
theorem chunk_text_valueError_iff :
    (∀ (text : List Char) (cs ov : Int),
        (∃ e, chunk_text text cs ov = .error e) ↔ normJoin text ≠ [] ∧ cs ≤ ov)
    ∧ (∀ (text : List Char) (cs ov : Int),
        normJoin text = [] → chunk_text text cs ov = .ok []) := by
  constructor
  · intro text cs ov
    simp only [chunk_text]
    by_cases h1 : normJoin text = []
    · rw [if_pos h1]
      simp [h1]
    · rw [if_neg h1]
      by_cases h2 : cs ≤ ov
      · rw [if_pos h2]
        simp [h1, h2]
      · rw [if_neg h2]
        constructor
        · rintro ⟨e, he⟩
          split at he <;> simp at he
        · rintro ⟨_, hc⟩
          exact absurd hc h2
  · intro text cs ov h
    simp only [chunk_text]
    rw [if_pos h]

theorem chunk_text_valueError_iff_witness :
    (∃ e, chunk_text "x".toList 1 5 = .error e) ∧ chunk_text " \n ".toList 1 5 = .ok [] :=
  ⟨(chunk_text_valueError_iff.1 "x".toList 1 5).mpr ⟨by decide, by decide⟩,
   chunk_text_valueError_iff.2 " \n ".toList 1 5 (by decide)⟩

/-- C9: for every text whose normalized joined form is non-empty and every
`chunk_size > overlap >= 0`, `chunk_text` terminates and returns a non-empty
list in which every chunk is non-empty and has length at most `chunk_size`;
if the joined text has length at most `chunk_size` the result is exactly the
single-element list containing the joined text. -/
theorem chunk_text_ok_spec (text : List Char) (cs ov : Int)
    (hne : normJoin text ≠ []) (hov : 0 ≤ ov) (hcs : ov < cs) :
    ∃ chunks, chunk_text text cs ov = .ok chunks ∧ chunks ≠ [] ∧
      (∀ c ∈ chunks, c ≠ [] ∧ (c.length : Int) ≤ cs) ∧
      (((normJoin text).length : Int) ≤ cs → chunks = [normJoin text]) := by
  simp only [chunk_text]
  rw [if_neg hne, if_neg (show ¬cs ≤ ov by omega)]
  by_cases hlen : ((normJoin text).length : Int) ≤ cs
  · rw [if_pos hlen]
    refine ⟨[normJoin text], rfl, by simp, ?_, fun _ => rfl⟩
    intro c hc
    simp only [List.mem_singleton] at hc
    subst hc
    exact ⟨hne, hlen⟩
  · rw [if_neg hlen]
    refine ⟨_, rfl, ?_, ?_, fun h => absurd h hlen⟩
    · obtain ⟨a, t, hj⟩ : ∃ a t, normJoin text = a :: t := by
        cases h : normJoin text with
        | nil => exact absurd h hne
        | cons a t => exact ⟨a, t, rfl⟩
      have ha := normJoin_head_not_space hj
      rw [show (100001 : Nat) = 100000 + 1 from rfl]
      exact chunkLoop_zero_ne_nil (normJoin text) cs ov hov hcs a t hj ha 100000
    · exact chunkLoop_forall_good (normJoin text) cs ov hov hcs 100001 0 0 [] le_rfl (by simp)

theorem chunk_text_ok_spec_witness :
    ∃ chunks, chunk_text "hi there".toList 10 2 = .ok chunks ∧ chunks ≠ [] ∧
      (∀ c ∈ chunks, c ≠ [] ∧ (c.length : Int) ≤ 10) ∧
      (((normJoin "hi there".toList).length : Int) ≤ 10 → chunks = [normJoin "hi there".toList]) :=
  chunk_text_ok_spec "hi there".toList 10 2 (by decide) (by decide) (by decide)

/-! ### Behavior of the `parse_pdf` loop -/

theorem parsePdfLoop_nil (mp : Nat) (fa : Option Nat) (acc : List Char) :
    parsePdfLoop mp [] fa acc = acc := by
  cases fa with
  | none => rfl
  | some k => cases k <;> rfl

theorem parsePdfLoop_fail0 (mp : Nat) (pages : List PdfPage) (acc : List Char) :
    parsePdfLoop mp pages (some 0) acc = acc := by
  cases pages <;> rfl

theorem parsePdfLoop_cons_none (mp : Nat) (p : PdfPage) (rest : List PdfPage) (acc : List Char) :
    parsePdfLoop mp (p :: rest) none acc =
      parsePdfLoop mp rest none (acc ++ pageContribution mp p) := rfl

theorem parsePdfLoop_cons_succ (mp : Nat) (p : PdfPage) (rest : List PdfPage) (k : Nat) (acc : List Char) :
    parsePdfLoop mp (p :: rest) (some (k + 1)) acc =
      parsePdfLoop mp rest (some k) (acc ++ pageContribution mp p) := rfl

/-- The page loop returns the accumulator extended by the contributions of
the pages processed before the failure point (all pages when there is no
failure). -/
theorem parsePdfLoop_spec (mp : Nat) :
    ∀ (pages : List PdfPage) (fa : Option Nat) (acc : List Char),
      ∃ n, n ≤ pages.length ∧
        parsePdfLoop mp pages fa acc =
          acc ++ ((pages.take n).map (pageContribution mp)).flatten ∧
        (fa = none → n = pages.length) := by
  intro pages
  induction pages with
  | nil =>
    intro fa acc
    exact ⟨0, le_rfl, by simp [parsePdfLoop_nil], fun _ => rfl⟩
  | cons p rest ih =>
    intro fa acc
    match fa with
    | some 0 =>
      exact ⟨0, by simp, by simp [parsePdfLoop_fail0], by simp⟩
    | some (k + 1) =>
      obtain ⟨n, hn, heq, _⟩ := ih (some k) (acc ++ pageContribution mp p)
      refine ⟨n + 1, by simpa using hn, ?_, by simp⟩
      rw [parsePdfLoop_cons_succ, heq]
      simp [List.take_succ_cons]
    | none =>
      obtain ⟨n, hn, heq, hnone⟩ := ih none (acc ++ pageContribution mp p)
      refine ⟨n + 1, by simpa using hn, ?_, ?_⟩
      · rw [parsePdfLoop_cons_none, heq]
        simp [List.take_succ_cons]
      · intro _
        simp [hnone rfl]

/-- C10: for every document model and every choice of `ocr_timeout` and
`max_image_pixels`, `parse_pdf` returns a string and never raises: the
result is the stripped concatenation of the contributions of the pages
processed up to the first failure (possibly the empty string), and of all
pages when nothing fails. -/
theorem parse_pdf_never_raises (doc : PdfDoc) (ocr_timeout max_image_pixels : Nat) :
    ∃ n, n ≤ doc.pages.length ∧
      parse_pdf doc ocr_timeout max_image_pixels =
        pyStrip (((doc.pages.take n).map (pageContribution max_image_pixels)).flatten) ∧
      (doc.loadOk = true → doc.failAfter = none → n = doc.pages.length) := by
  by_cases hload : doc.loadOk
  · obtain ⟨n, hn, heq, hnone⟩ :=
      parsePdfLoop_spec max_image_pixels doc.pages doc.failAfter []
    refine ⟨n, hn, ?_, fun _ => hnone⟩
    simp only [parse_pdf, if_pos hload, heq, List.nil_append]
  · refine ⟨0, Nat.zero_le _, ?_, fun h => absurd h hload⟩
    simp [parse_pdf, hload]

theorem parse_pdf_never_raises_witness :
    ∃ n, n ≤ (PdfDoc.mk true [⟨.ok (some " hi ".toList), .error (), []⟩] none).pages.length ∧
      parse_pdf (PdfDoc.mk true [⟨.ok (some " hi ".toList), .error (), []⟩] none) 8 3000000 =
        pyStrip ((((PdfDoc.mk true [⟨.ok (some " hi ".toList), .error (), []⟩] none).pages.take n).map
          (pageContribution 3000000)).flatten) ∧
      ((PdfDoc.mk true [⟨.ok (some " hi ".toList), .error (), []⟩] none).loadOk = true →
        (PdfDoc.mk true [⟨.ok (some " hi ".toList), .error (), []⟩] none).failAfter = none →
        n = (PdfDoc.mk true [⟨.ok (some " hi ".toList), .error (), []⟩] none).pages.length) :=
  parse_pdf_never_raises (PdfDoc.mk true [⟨.ok (some " hi ".toList), .error (), []⟩] none) 8 3000000

/-- C1: OCR is attempted on a page only when normal text extraction yields
no non-empty text; when normal extraction returns non-empty text, the
page's text is the stripped extracted text (so its contribution to the
result is that text followed by the `"\n\n"` separator) and OCR is not
attempted. -/
theorem parse_pdf_ocr_only_fallback (max_image_pixels : Nat) (p : PdfPage) :
    (ocrRan max_image_pixels p = true → step1Text p = []) ∧
    (∀ raw, p.extract = .ok (some raw) → pyStrip raw ≠ [] →
      pageText max_image_pixels p = pyStrip raw ∧
      pageContribution max_image_pixels p = pyStrip raw ++ ['\n', '\n'] ∧
      ocrRan max_image_pixels p = false) := by
  constructor
  · intro h
    unfold ocrRan at h
    by_cases hs : step1Text p = []
    · exact hs
    · rw [if_neg hs] at h
      exact absurd h (by simp)
  · intro raw hext hne
    have hstep : step1Text p = pyStrip raw := by
      unfold step1Text
      rw [hext]
    have hptext : pageText max_image_pixels p = pyStrip raw := by
      unfold pageText
      rw [hstep, if_pos hne]
    refine ⟨hptext, ?_, ?_⟩
    · unfold pageContribution
      rw [hptext, if_neg hne]
    · unfold ocrRan
      rw [hstep, if_neg hne]

theorem parse_pdf_ocr_only_fallback_witness :
    pageText 3000000 ⟨.ok (some "  hello ".toList), .ok (10, 10), "ocr".toList⟩ =
      pyStrip "  hello ".toList ∧
    pageContribution 3000000 ⟨.ok (some "  hello ".toList), .ok (10, 10), "ocr".toList⟩ =
      pyStrip "  hello ".toList ++ ['\n', '\n'] ∧
    ocrRan 3000000 ⟨.ok (some "  hello ".toList), .ok (10, 10), "ocr".toList⟩ = false :=
  (parse_pdf_ocr_only_fallback 3000000
      ⟨.ok (some "  hello ".toList), .ok (10, 10), "ocr".toList⟩).2
    "  hello ".toList rfl (by decide)

/-- C7: `parallel_ocr` runs its OCR tasks on a thread pool created with
exactly two workers and submits at most `max_pages` pages to it. -/
theorem parallel_ocr_bounded (doc : List PdfPage) (blank_pages : List Nat) (max_pages : Nat) :
    (parallel_ocr doc blank_pages max_pages).max_workers = 2 ∧
    (parallel_ocr doc blank_pages max_pages).submitted.length ≤ max_pages := by
  refine ⟨rfl, ?_⟩
  simp only [parallel_ocr]
  exact List.length_take_le max_pages blank_pages

/-! ### Every tool dictionary carries a valid status -/

theorem except_bind_ok {ε α β : Type} {x : Except ε α} {f : α → Except ε β} {b : β}
    (h : x >>= f = .ok b) : ∃ a, x = .ok a ∧ f a = .ok b := by
  cases x with
  | error e => exact Except.noConfusion (show Except.error e = Except.ok b from h)
  | ok a => exact ⟨a, rfl, h⟩

theorem weatherParse_status (data : JVal) (city ts : String) (d : ToolDict)
    (h : weatherParse data city ts = .ok d) : statusIsValid d = true := by
  unfold weatherParse at h
  obtain ⟨hasErr, -, h⟩ := except_bind_ok h
  split at h
  · obtain ⟨errv, -, h⟩ := except_bind_ok h
    obtain ⟨info, -, h⟩ := except_bind_ok h
    cases h
    rfl
  · obtain ⟨current, -, h⟩ := except_bind_ok h
    obtain ⟨location, -, h⟩ := except_bind_ok h
    obtain ⟨name, -, h⟩ := except_bind_ok h
    obtain ⟨country, -, h⟩ := except_bind_ok h
    obtain ⟨region, -, h⟩ := except_bind_ok h
    obtain ⟨temperature, -, h⟩ := except_bind_ok h
    obtain ⟨feelslike, -, h⟩ := except_bind_ok h
    obtain ⟨humidity, -, h⟩ := except_bind_ok h
    obtain ⟨pressure, -, h⟩ := except_bind_ok h
    obtain ⟨wind_speed, -, h⟩ := except_bind_ok h
    obtain ⟨wind_dir, -, h⟩ := except_bind_ok h
    obtain ⟨descs, -, h⟩ := except_bind_ok h
    obtain ⟨obsTime, -, h⟩ := except_bind_ok h
    cases h
    rfl

theorem get_weather_info_status (outcome : HttpOutcome) (city ts : String) :
    statusIsValid (get_weather_info outcome city ts) = true := by
  unfold get_weather_info WeatherStackAPI.get_weather
  split
  · rfl
  · split
    · rfl
    · rfl
    · split
      · rfl
      · split
        · rename_i d heq
          obtain ⟨data, -, h⟩ := except_bind_ok heq
          exact weatherParse_status _ _ _ _ h
        · rfl

theorem cryptoParse_status (data : JVal) (symbol ts : String) (d : ToolDict)
    (h : cryptoParse data symbol ts = .ok d) : statusIsValid d = true := by
  unfold cryptoParse at h
  obtain ⟨hasData, -, h⟩ := except_bind_ok h
  split at h
  · cases h
    rfl
  · obtain ⟨dd, -, h⟩ := except_bind_ok h
    obtain ⟨hasSym, -, h⟩ := except_bind_ok h
    split at h
    · cases h
      rfl
    · obtain ⟨info, -, h⟩ := except_bind_ok h
      obtain ⟨quoteOuter, -, h⟩ := except_bind_ok h
      obtain ⟨quote, -, h⟩ := except_bind_ok h
      obtain ⟨name, -, h⟩ := except_bind_ok h
      obtain ⟨price, -, h⟩ := except_bind_ok h
      obtain ⟨priceR, -, h⟩ := except_bind_ok h
      obtain ⟨chg, -, h⟩ := except_bind_ok h
      obtain ⟨chgR, -, h⟩ := except_bind_ok h
      obtain ⟨mcap, -, h⟩ := except_bind_ok h
      obtain ⟨mcapR, -, h⟩ := except_bind_ok h
      cases h
      rfl

theorem get_crypto_price_status (outcome : HttpOutcome) (symbol ts : String) :
    statusIsValid (get_crypto_price outcome symbol ts) = true := by
  unfold get_crypto_price CoinMarketAPI.get_price
  split
  · rfl
  · rfl
  · split
    · rfl
    · split
      · rename_i d heq
        obtain ⟨data, -, h⟩ := except_bind_ok heq
        exact cryptoParse_status _ _ _ _ h
      · rfl

theorem numverifyParse_status (data : JVal) (phone : String) (d : ToolDict)
    (h : numverifyParse data phone = .ok d) : statusIsValid d = true := by
  unfold numverifyParse at h
  obtain ⟨hasErr, -, h⟩ := except_bind_ok h
  split at h
  · obtain ⟨errv, -, h⟩ := except_bind_ok h
    obtain ⟨info, -, h⟩ := except_bind_ok h
    cases h
    rfl
  · obtain ⟨valid, -, h⟩ := except_bind_ok h
    split at h
    · cases h
      rfl
    · obtain ⟨number, -, h⟩ := except_bind_ok h
      obtain ⟨cname, -, h⟩ := except_bind_ok h
      obtain ⟨ccode, -, h⟩ := except_bind_ok h
      obtain ⟨loc, -, h⟩ := except_bind_ok h
      obtain ⟨carrier, -, h⟩ := except_bind_ok h
      obtain ⟨ltype, -, h⟩ := except_bind_ok h
      cases h
      rfl

theorem verify_phone_number_status (outcome : HttpOutcome) (phone : String) :
    statusIsValid (verify_phone_number outcome phone) = true := by
  unfold verify_phone_number NumVerifyAPI.lookup
  split
  · rfl
  · split
    · rfl
    · rfl
    · split
      · rfl
      · split
        · rename_i d heq
          obtain ⟨data, -, h⟩ := except_bind_ok heq
          exact numverifyParse_status _ _ _ h
        · rfl

theorem flightTry_status (env : AmadeusEnv) (token : JVal) (d : ToolDict)
    (h : flightTry env token = .ok d) : statusIsValid d = true := by
  unfold flightTry at h
  obtain ⟨tok, -, h⟩ := except_bind_ok h
  split at h
  · exact Except.noConfusion h
  · exact Except.noConfusion h
  · split at h
    · exact Except.noConfusion h
    · obtain ⟨data, -, h⟩ := except_bind_ok h
      obtain ⟨flights, -, h⟩ := except_bind_ok h
      split at h
      · cases h
        rfl
      · split at h
        · obtain ⟨formatted, -, h⟩ := except_bind_ok h
          cases h
          rfl
        · exact Except.noConfusion h

theorem search_flights_ok_status (env : AmadeusEnv) (origin destination : String)
    (d : ToolDict) (h : AmadeusAPI.search_flights env origin destination = .ok d) :
    statusIsValid d = true := by
  unfold AmadeusAPI.search_flights at h
  split at h
  · exact Except.noConfusion h
  · split at h
    · exact Except.noConfusion h
    · split at h
      · cases h
        rfl
      · injection h with h'
        subst h'
        split
        · rename_i d' heq
          exact flightTry_status env _ d' heq
        · rfl

theorem search_flights_amadeus_status (env : AmadeusEnv) (origin destination : String) :
    statusIsValid (search_flights_amadeus env origin destination) = true := by
  unfold search_flights_amadeus
  split
  · rename_i d heq
    exact search_flights_ok_status env origin destination d heq
  · rfl

/-- C5: each of the four tool functions `get_weather_info`,
`get_crypto_price`, `verify_phone_number` and `search_flights_amadeus`
returns, for every input and every behavior of the external HTTP
services, a dictionary containing a `"status"` key holding `"success"`,
`"error"` or `"invalid"`; every exception is caught inside, so (being
total functions into dictionaries) they never propagate one to the
caller. -/
theorem tools_always_return_status (wo co no : HttpOutcome) (env : AmadeusEnv)
    (city symbol phone origin destination wts cts : String) :
    statusIsValid (get_weather_info wo city wts) = true ∧
    statusIsValid (get_crypto_price co symbol cts) = true ∧
    statusIsValid (verify_phone_number no phone) = true ∧
    statusIsValid (search_flights_amadeus env origin destination) = true :=
  ⟨get_weather_info_status wo city wts,
   get_crypto_price_status co symbol cts,
   verify_phone_number_status no phone,
   search_flights_amadeus_status env origin destination⟩

/-! ### Dictionary update facts for the memory store -/

theorem lookup_dictUpdateVal_self (d : List (String × MemVal)) (k : String) (v : MemVal) :
    List.lookup k (dictUpdateVal d k v) = (List.lookup k d).map (fun _ => v) := by
  induction d with
  | nil => rfl
  | cons kv rest ih =>
    obtain ⟨k', v'⟩ := kv
    simp only [dictUpdateVal, List.map_cons] at ih ⊢
    by_cases h : k' = k
    · subst h
      simp [List.lookup_cons]
    · have hbeq : (k == k') = false := by
        simp [Ne.symm h]
      rw [if_neg h]
      simp only [List.lookup_cons, hbeq, cond_false]
      exact ih

theorem lookup_dictUpdateVal_ne (d : List (String × MemVal)) (k k' : String) (v : MemVal)
    (h : k' ≠ k) : List.lookup k' (dictUpdateVal d k v) = List.lookup k' d := by
  induction d with
  | nil => rfl
  | cons kv rest ih =>
    obtain ⟨a, b⟩ := kv
    simp only [dictUpdateVal, List.map_cons] at ih ⊢
    by_cases ha : a = k
    · subst ha
      rw [if_pos rfl]
      have hbeq : (k' == a) = false := by simp [h]
      simp only [List.lookup_cons, hbeq, cond_false]
      exact ih
    · rw [if_neg ha]
      simp only [List.lookup_cons]
      cases hb : (k' == a) with
      | true => rfl
      | false => exact ih

/-! ### Claim theorems for the RAG pipeline and the agent pieces -/

/-- C2: `index_documents` selects the parser by the lowercased filename
extension (`.pdf` → `parse_pdf`, `.docx` → `parse_docx`,
`.jpg`/`.jpeg`/`.png` → `extract_text_from_image_bytes`, anything else →
UTF-8 decoding), and a file whose extracted text is empty or
whitespace-only is skipped, contributing no chunks, metadata or ids. -/
theorem index_documents_dispatch_and_skip :
    (∀ f : UploadFile, pyEndsWith (pyLower f.name) ".pdf".toList = true →
        extractText f = f.pdfText) ∧
    (∀ f : UploadFile, pyEndsWith (pyLower f.name) ".pdf".toList = false →
        pyEndsWith (pyLower f.name) ".docx".toList = true → extractText f = f.docxText) ∧
    (∀ f : UploadFile, pyEndsWith (pyLower f.name) ".pdf".toList = false →
        pyEndsWith (pyLower f.name) ".docx".toList = false →
        (pyEndsWith (pyLower f.name) ".jpg".toList || pyEndsWith (pyLower f.name) ".jpeg".toList ||
          pyEndsWith (pyLower f.name) ".png".toList) = true → extractText f = f.imageText) ∧
    (∀ f : UploadFile, pyEndsWith (pyLower f.name) ".pdf".toList = false →
        pyEndsWith (pyLower f.name) ".docx".toList = false →
        (pyEndsWith (pyLower f.name) ".jpg".toList || pyEndsWith (pyLower f.name) ".jpeg".toList ||
          pyEndsWith (pyLower f.name) ".png".toList) = false → extractText f = utf8Fallback f) ∧
    (∀ (cs ov : Int) (i : Nat) (f : UploadFile) (rest : List (Nat × UploadFile)),
        pyStrip (extractText f) = [] →
        indexLoop cs ov ((i, f) :: rest) = indexLoop cs ov rest) := by
  refine ⟨?_, ?_, ?_, ?_, ?_⟩
  · intro f h
    simp only [extractText]
    simp at h
    simp [h]
  · intro f h1 h2
    simp only [extractText]
    simp at h1 h2
    simp [h1, h2]
  · intro f h1 h2 h3
    simp only [extractText]
    simp at h1 h2 h3
    simp [h1, h2, h3]
  · intro f h1 h2 h3
    simp only [Bool.or_eq_false_iff] at h3
    obtain ⟨⟨h3a, h3b⟩, h3c⟩ := h3
    simp only [extractText]
    simp at h1 h2 h3a h3b h3c
    simp [h1, h2, h3a, h3b, h3c]
  · intro cs ov i f rest h
    simp [indexLoop, h]

theorem index_documents_dispatch_and_skip_witness :
    extractText ⟨"Report.PDF".toList, "P".toList, "D".toList, "I".toList, .ok "T".toList⟩ =
      "P".toList ∧
    extractText ⟨"a.docx".toList, "P".toList, "D".toList, "I".toList, .ok "T".toList⟩ =
      "D".toList ∧
    extractText ⟨"pic.JPeG".toList, "P".toList, "D".toList, "I".toList, .ok "T".toList⟩ =
      "I".toList ∧
    extractText ⟨"notes.md".toList, "P".toList, "D".toList, "I".toList, .ok "T".toList⟩ =
      utf8Fallback ⟨"notes.md".toList, "P".toList, "D".toList, "I".toList, .ok "T".toList⟩ ∧
    indexLoop 1000 200 [(0, ⟨"blank.txt".toList, [], [], [], .ok "  ".toList⟩)] =
      indexLoop 1000 200 [] :=
  ⟨index_documents_dispatch_and_skip.1 _ (by decide),
   index_documents_dispatch_and_skip.2.1 _ (by decide) (by decide),
   index_documents_dispatch_and_skip.2.2.1 _ (by decide) (by decide) (by decide),
   index_documents_dispatch_and_skip.2.2.2.1 _ (by decide) (by decide) (by decide),
   index_documents_dispatch_and_skip.2.2.2.2 1000 200 0
     ⟨"blank.txt".toList, [], [], [], .ok "  ".toList⟩ [] (by decide)⟩

/-- C3: the retriever returned by `get_retriever_for_collection` returns at
most `k` `(content, metadata, score)` triples, where `k` defaults to
`top_k` (itself defaulting to 5); it returns `[]` when the query is empty
or whitespace-only, and `[]` rather than raising when the underlying
similarity search fails.  (That the external
`similarity_search_with_score` hands back at most `k` results is the
Chroma library's contract, taken as a hypothesis.) -/
theorem retriever_spec (μ σ : Type) :
    (∀ (store : String → Nat → Except String (List (RagDocument μ × σ))) (tk : Nat) (q : String),
        get_retriever_for_collection store tk q none = retrieverFun store q tk) ∧
    top_k_default = 5 ∧
    (∀ (store : String → Nat → Except String (List (RagDocument μ × σ))) (q : String) (k : Nat),
        (∀ l, store q k = .ok l → l.length ≤ k) →
        (retrieverFun store q k).length ≤ k) ∧
    (∀ (store : String → Nat → Except String (List (RagDocument μ × σ))) (q : String) (k : Nat),
        pyStrip q.toList = [] → retrieverFun store q k = []) ∧
    (∀ (store : String → Nat → Except String (List (RagDocument μ × σ))) (q : String) (k : Nat)
        (e : String), store q k = .error e → retrieverFun store q k = []) := by
  refine ⟨fun _ _ _ => rfl, rfl, ?_, ?_, ?_⟩
  · intro store q k hcontract
    unfold retrieverFun
    split
    · simp
    · cases hs : store q k with
      | error e => simp
      | ok l =>
        simp only [List.length_map]
        exact hcontract l hs
  · intro store q k h
    unfold retrieverFun
    rw [if_pos h]
  · intro store q k e h
    unfold retrieverFun
    split
    · rfl
    · rw [h]

theorem retriever_spec_witness :
    get_retriever_for_collection (μ := Nat) (σ := Int)
        (fun _ _ => .ok [(⟨"doc", 3⟩, 7)]) 5 "hello" none =
      retrieverFun (fun _ _ => .ok [(⟨"doc", 3⟩, 7)]) "hello" 5 ∧
    (retrieverFun (μ := Nat) (σ := Int)
        (fun _ _ => .ok [(⟨"doc", 3⟩, 7)]) "hello" 5).length ≤ 5 ∧
    retrieverFun (μ := Nat) (σ := Int)
        (fun _ _ => .ok [(⟨"doc", 3⟩, 7)]) " \t " 5 = [] ∧
    retrieverFun (μ := Nat) (σ := Int)
        (fun _ _ => .error "connection lost") "hello" 5 = [] :=
  ⟨(retriever_spec Nat Int).1 _ 5 "hello",
   (retriever_spec Nat Int).2.2.1 _ "hello" 5
     (fun l h => by injection h with h'; rw [← h']; decide),
   (retriever_spec Nat Int).2.2.2.1 _ " \t " 5 (by decide),
   (retriever_spec Nat Int).2.2.2.2 _ "hello" 5 "connection lost" rfl⟩

/-- C4: `MemoryStore.append` extends the stored message list with exactly
two records in order — first the user record with the user input, then
the assistant record with the assistant output, each carrying a
timestamp — and leaves previously stored messages and all other keys of
the store unchanged. -/
theorem MemoryStore.append_two_records (data : List (String × MemVal))
    (u a ts1 ts2 : String)
    (hwf : List.lookup "messages" data = none ∨
      ∃ l, List.lookup "messages" data = some (.msgs l)) :
    ∃ d', MemoryStore.append data u a ts1 ts2 = .ok d' ∧
      List.lookup "messages" d' = some (.msgs (
        (match List.lookup "messages" data with
         | some (MemVal.msgs l) => l
         | _ => []) ++ [⟨"user", u, ts1⟩, ⟨"assistant", a, ts2⟩])) ∧
      (∀ k, k ≠ "messages" → List.lookup k d' = List.lookup k data) := by
  rcases hwf with hnone | ⟨l, hsome⟩
  · have hd : dictSetdefault data "messages" (.msgs []) =
        data ++ [("messages", .msgs [])] := by
      simp [dictSetdefault, hnone]
    have hlook : List.lookup "messages" (data ++ [("messages", MemVal.msgs [])]) =
        some (.msgs []) := by
      rw [List.lookup_append, hnone]
      simp
    refine ⟨dictUpdateVal (data ++ [("messages", .msgs [])]) "messages"
      (.msgs ([] ++ [⟨"user", u, ts1⟩, ⟨"assistant", a, ts2⟩])), ?_, ?_, ?_⟩
    · simp only [MemoryStore.append, hd, hlook]
    · rw [lookup_dictUpdateVal_self, hlook, hnone]
      simp
    · intro k hk
      rw [lookup_dictUpdateVal_ne _ _ _ _ hk, List.lookup_append]
      have hbeq : (k == "messages") = false := by simp [hk]
      simp [List.lookup_cons, hbeq]
  · have hd : dictSetdefault data "messages" (.msgs []) = data := by
      simp [dictSetdefault, hsome]
    refine ⟨dictUpdateVal data "messages"
      (.msgs (l ++ [⟨"user", u, ts1⟩, ⟨"assistant", a, ts2⟩])), ?_, ?_, ?_⟩
    · simp only [MemoryStore.append, hd, hsome]
    · rw [lookup_dictUpdateVal_self, hsome]
      simp
    · intro k hk
      rw [lookup_dictUpdateVal_ne _ _ _ _ hk]

theorem MemoryStore.append_two_records_witness :
    ∃ d', MemoryStore.append
        [("messages", .msgs [⟨"user", "hi", "t0"⟩]), ("profile", .other "x")]
        "how" "fine" "t1" "t2" = .ok d' ∧
      List.lookup "messages" d' = some (.msgs (
        (match List.lookup "messages"
            [("messages", MemVal.msgs [⟨"user", "hi", "t0"⟩]), ("profile", MemVal.other "x")] with
         | some (MemVal.msgs l) => l
         | _ => []) ++ [⟨"user", "how", "t1"⟩, ⟨"assistant", "fine", "t2"⟩])) ∧
      (∀ k, k ≠ "messages" → List.lookup k d' = List.lookup k
        [("messages", MemVal.msgs [⟨"user", "hi", "t0"⟩]), ("profile", MemVal.other "x")]) :=
  MemoryStore.append_two_records
    [("messages", .msgs [⟨"user", "hi", "t0"⟩]), ("profile", .other "x")]
    "how" "fine" "t1" "t2" (Or.inr ⟨[⟨"user", "hi", "t0"⟩], by decide⟩)

/-- C6: each invocation of `llm_node` returns a state update whose
`llm_calls` value is the previous value plus one, a missing value
counting as zero. -/
theorem llm_node_increments_counter (α : Type) (llm_with_tools : List α → α)
    (system : α) (state : AgentState α) :
    (llm_node llm_with_tools system state).llm_calls = state.llm_calls.getD 0 + 1 := rfl

end SmartInfo
